import Mathlib

/-!
Verification of the nocturne-mailer queue/dispatch/retry engine.

The durable store (a Cloudflare D1 `emails` table) is modelled as a list of
rows in table order; each SQL statement issued by `src/db/config.ts`
(`src/unnamed/part_004`) is embedded as a pure function on that list.
Timestamps (`CURRENT_TIMESTAMP`) are modelled as an explicit `now : Nat`
argument, and the external dispatch/provider calls as boolean oracles.
-/

namespace Nocturne

/-- Statuses of an email job, from `type EmailStatus` in the db layer. -/
inductive EmailStatus
  | queued
  | processing
  | sent
  | failed
  | dead
  deriving DecidableEq, Repr

/-- Row of the `emails` table, from `interface EmailJob` in the db layer. -/
structure EmailJob where
  id : String
  recipient : String
  subject : String
  body : String
  status : EmailStatus
  retry_count : Nat
  created_at : Nat
  updated_at : Nat
  deriving DecidableEq, Repr

/-- The `emails` table: rows in table order. -/
abbrev Store := List EmailJob

/-- Semantics of `UPDATE emails SET ... WHERE id = ?`: apply `g` to every row
whose id matches. -/
def sqlUpdateWhereId (store : Store) (i : String) (g : EmailJob → EmailJob) : Store :=
  store.map (fun j => if j.id = i then g j else j)

/-- Semantics of `UPDATE emails SET ... WHERE id IN (...)`: apply `g` to every
row whose id is in the list. -/
def sqlUpdateWhereIdIn (store : Store) (ids : List String) (g : EmailJob → EmailJob) : Store :=
  store.map (fun j => if j.id ∈ ids then g j else j)

/-- Rows matched by `SELECT id FROM emails WHERE status = 'queued' LIMIT ?`:
the first `batchSize` queued rows in table order. -/
def selectedQueued (store : Store) (batchSize : Nat) : List EmailJob :=
  (store.filter (fun j => j.status = EmailStatus.queued)).take batchSize

/-- Step 1 of `getQueuedEmailsForProcessing`:
`SELECT id FROM emails WHERE status = 'queued' LIMIT ?`, projected to ids. -/
def selectQueuedIds (store : Store) (batchSize : Nat) : List String :=
  (selectedQueued store batchSize).map EmailJob.id

/-- Row transformation of the claim statement
`SET status = 'processing', updated_at = CURRENT_TIMESTAMP`. -/
def claimSet (now : Nat) (j : EmailJob) : EmailJob :=
  { j with status := EmailStatus.processing, updated_at := now }

/-- Step 2 of `getQueuedEmailsForProcessing`: the `UPDATE ... WHERE id IN (...)
RETURNING *` statement; returns the new table and the updated rows. -/
def claimUpdate (store : Store) (ids : List String) (now : Nat) : Store × List EmailJob :=
  let store' := sqlUpdateWhereIdIn store ids (claimSet now)
  (store', store'.filter (fun j => j.id ∈ ids))

/-- `getQueuedEmailsForProcessing(db, batchSize)`: select a batch of queued
ids, return early when none, else flip them to `processing` and return the
updated rows. The two SQL statements run back-to-back with no transaction;
this function models one non-interleaved call. -/
def getQueuedEmailsForProcessing (store : Store) (batchSize : Nat) (now : Nat) :
    Store × List EmailJob :=
  let ids := selectQueuedIds store batchSize
  if ids.isEmpty then (store, [])
  else claimUpdate store ids now

/-- Interleaving of two concurrent invocations of `getQueuedEmailsForProcessing`
against the same store in the order select-A, select-B, update-A, update-B;
each SQL statement is individually atomic, but nothing groups the select with
its update. Returns the final table and each invocation's returned rows. -/
def interleavedClaims (store : Store) (n : Nat) (now1 now2 : Nat) :
    Store × List EmailJob × List EmailJob :=
  let idsA := selectQueuedIds store n
  let idsB := selectQueuedIds store n
  let ra := if idsA.isEmpty then (store, ([] : List EmailJob)) else claimUpdate store idsA now1
  let rb := if idsB.isEmpty then (ra.1, ([] : List EmailJob)) else claimUpdate ra.1 idsB now2
  (rb.1, ra.2, rb.2)

/-- `updateEmailStatus(db, id, status)`:
`UPDATE emails SET status = ?, updated_at = CURRENT_TIMESTAMP WHERE id = ?`. -/
def updateEmailStatus (store : Store) (i : String) (status : EmailStatus) (now : Nat) : Store :=
  sqlUpdateWhereId store i (fun j => { j with status := status, updated_at := now })

/-- `handleFailedJob(db, job, maxRetries)`: dead-letter when the job's retry
count has reached `maxRetries`, else requeue with the incremented counter. -/
def handleFailedJob (store : Store) (job : EmailJob) (maxRetries : Nat) (now : Nat) : Store :=
  if maxRetries ≤ job.retry_count then
    sqlUpdateWhereId store job.id
      (fun j => { j with status := EmailStatus.dead, updated_at := now })
  else
    sqlUpdateWhereId store job.id
      (fun j => { j with status := EmailStatus.queued,
                         retry_count := job.retry_count + 1, updated_at := now })

/-- `getEmailById(db, id)`: `SELECT * FROM emails WHERE id = ?`, first row. -/
def getEmailById (store : Store) (i : String) : Option EmailJob :=
  (store.filter (fun j => j.id = i)).head?

/-- `requeueEmailJob(db, id, resetRetries)`: null when missing or not in
`failed`/`dead`; else set status queued with the chosen retry count and
return the updated row (`RETURNING *`). -/
def requeueEmailJob (store : Store) (i : String) (resetRetries : Bool) (now : Nat) :
    Store × Option EmailJob :=
  match getEmailById store i with
  | none => (store, none)
  | some job =>
    if job.status ≠ EmailStatus.failed ∧ job.status ≠ EmailStatus.dead then (store, none)
    else
      let retryExpr := if resetRetries then 0 else job.retry_count
      let store' := sqlUpdateWhereId store i
        (fun j => { j with status := EmailStatus.queued,
                           retry_count := retryExpr, updated_at := now })
      (store', getEmailById store' i)

/-- Webhook event shape accepted by the Mailjet webhook route. -/
structure MailjetEvent where
  event : String
  CustomID : String
  deriving DecidableEq, Repr

/-- Status selected by the `switch (evt.event)` of `processMailjetWebhook`;
`none` for unrecognized event types. -/
def webhookStatus (event : String) : Option EmailStatus :=
  if event = "sent" ∨ event = "open" ∨ event = "click" then some EmailStatus.sent
  else if event = "bounce" ∨ event = "spam" ∨ event = "blocked" then some EmailStatus.failed
  else none

/-- Per-event handler of `processMailjetWebhook`: skip when `CustomID` is
empty (falsy), update the correlated job when the event type is recognized,
do nothing otherwise. -/
def processWebhookEvent (store : Store) (evt : MailjetEvent) (now : Nat) : Store :=
  if evt.CustomID = "" then store
  else
    match webhookStatus evt.event with
    | some st => updateEmailStatus store evt.CustomID st now
    | none => store

/-- `processMailjetWebhook(env, events)`: apply every event's update and
return the controller result (`ok: true`). -/
def processMailjetWebhook (store : Store) (events : List MailjetEvent) (now : Nat) :
    Store × Bool :=
  (events.foldl (fun s e => processWebhookEvent s e now) store, true)

/-- Per-job step of `processQueuedEmails`: on dispatch success update the job
to `sent`; on dispatch failure apply `handleFailedJob` with the hard-coded
retry budget of 3. `sendOk` is the dispatch-outcome oracle standing for
`sendEmailWithMailjet` resolving or throwing. -/
def processOneJob (sendOk : EmailJob → Bool) (store : Store) (job : EmailJob) (now : Nat) :
    Store :=
  if sendOk job then updateEmailStatus store job.id EmailStatus.sent now
  else handleFailedJob store job 3 now

/-- `processQueuedEmails(env)`: claim a batch of (at most 10) queued jobs,
return `processed: 0` when none, else process every claimed job and report
the batch size. The claimed jobs have pairwise distinct ids (primary key),
so the concurrent fan-out is modelled by a fold over the batch. -/
def processQueuedEmails (sendOk : EmailJob → Bool) (store : Store) (now : Nat) :
    Store × Nat :=
  let r := getQueuedEmailsForProcessing store 10 now
  if r.2.isEmpty then (r.1, 0)
  else (r.2.foldl (fun s j => processOneJob sendOk s j now) r.1, r.2.length)

/-- Row transformation applied by `processQueuedEmails` to a claimed job's
row, combining the `sent` update and the two `handleFailedJob` branches;
the branch is chosen by the claimed row `job`, the update applies to the
stored row `r`. -/
def outcomeSet (sendOk : EmailJob → Bool) (now : Nat) (job : EmailJob) (r : EmailJob) :
    EmailJob :=
  if sendOk job then { r with status := EmailStatus.sent, updated_at := now }
  else if 3 ≤ job.retry_count then { r with status := EmailStatus.dead, updated_at := now }
  else { r with status := EmailStatus.queued,
                retry_count := job.retry_count + 1, updated_at := now }

/-- Per-event handler of `processMailjetWebhook` with a fallible store:
`updateOk i` tells whether the `UPDATE` touching job `i` succeeds; a failed
update applies nothing. -/
def processWebhookEventF (updateOk : String → Bool) (store : Store) (evt : MailjetEvent)
    (now : Nat) : Store :=
  if evt.CustomID = "" then store
  else
    match webhookStatus evt.event with
    | some st =>
      if updateOk evt.CustomID then updateEmailStatus store evt.CustomID st now else store
    | none => store

/-- Whether an event's handler attempts an update that fails (nonempty
correlation id, recognized event type, rejected update): exactly the events
whose promise rejects inside `Promise.all`. -/
def webhookEventAttemptFails (updateOk : String → Bool) (evt : MailjetEvent) : Bool :=
  !(evt.CustomID = "") && (webhookStatus evt.event).isSome && !(updateOk evt.CustomID)

/-- `processMailjetWebhook` with a fallible store: every event's handler runs
(all promises are started by `events.map` before `Promise.all` awaits them),
so each successful update is applied regardless of sibling failures; the
controller resolves (second component `true`) only when no attempted update
failed, since one rejected promise makes `Promise.all` reject. -/
def processMailjetWebhookF (updateOk : String → Bool) (store : Store)
    (events : List MailjetEvent) (now : Nat) : Store × Bool :=
  (events.foldl (fun s e => processWebhookEventF updateOk s e now) store,
   !(events.any (webhookEventAttemptFails updateOk)))

/-- HTTP status returned by the `/api/webhooks/mailjet` route handler
(`src/unnamed/part_006`): 200 with body OK when `processMailjetWebhook`
resolves, 500 when it rejects. -/
def mailjetWebhookHandlerStatus (updateOk : String → Bool) (store : Store)
    (events : List MailjetEvent) (now : Nat) : Nat :=
  if (processMailjetWebhookF updateOk store events now).2 then 200 else 500

/-- CHECK constraint on `emails.status` from the migration
(`src/unnamed/part_003`): `status IN ('queued','processing','sent','failed')`.
The later migration adding `retry_count` does not alter this constraint. -/
def statusCheckOk : EmailStatus → Bool
  | EmailStatus.queued => true
  | EmailStatus.processing => true
  | EmailStatus.sent => true
  | EmailStatus.failed => true
  | EmailStatus.dead => false

/-- Whether every row of a table satisfies the `status` CHECK constraint. -/
def storeCheckOk (store : Store) : Bool :=
  store.all (fun j => statusCheckOk j.status)

/-- Commit of an UPDATE against the constrained table: the statement fails
(applies nothing) when any resulting row violates the CHECK constraint. -/
def runChecked (store' : Store) : Option Store :=
  if storeCheckOk store' then some store' else none

/-- `handleFailedJob` as executed against the real migrated table, with the
CHECK constraint enforced by the storage layer. -/
def handleFailedJobChecked (store : Store) (job : EmailJob) (maxRetries now : Nat) :
    Option Store :=
  runChecked (handleFailedJob store job maxRetries now)

/-- Fields of a job that are immutable after creation per the spec data
model: id, recipient, subject, body, created_at. -/
def frameOf (j : EmailJob) : String × String × String × String × Nat :=
  (j.id, j.recipient, j.subject, j.body, j.created_at)

/-- Edges of the spec's §4.3 job state machine, including the webhook edges
from `queued`/`processing` and the admin requeue edges. Modelled from the
spec's words, to be compared with what the code's operations do. -/
def specAllowedEdge : EmailStatus → EmailStatus → Bool
  | EmailStatus.queued, EmailStatus.processing => true
  | EmailStatus.processing, EmailStatus.sent => true
  | EmailStatus.processing, EmailStatus.queued => true
  | EmailStatus.processing, EmailStatus.dead => true
  | EmailStatus.processing, EmailStatus.failed => true
  | EmailStatus.queued, EmailStatus.sent => true
  | EmailStatus.queued, EmailStatus.failed => true
  | EmailStatus.failed, EmailStatus.queued => true
  | EmailStatus.dead, EmailStatus.queued => true
  | _, _ => false

/-- Fresh queued job used in the concrete scenarios. -/
def mkJob (n : Nat) : EmailJob :=
  ⟨"j" ++ toString n, "r@x.com", "subj", "body", EmailStatus.queued, 0, 0, 0⟩

/-- Store of 15 queued jobs, for the claim-batch scenario. -/
def demoStore15 : Store := (List.range 15).map (fun n => mkJob (n + 1))

/-- Store with a single queued job, for the concurrent-claim interleaving. -/
def raceStore : Store := [mkJob 1]

/-- Job claimed for processing with an exhausted retry budget. -/
def procJob3 : EmailJob :=
  ⟨"p1", "r@x.com", "subj", "body", EmailStatus.processing, 3, 0, 0⟩

/-- Job claimed for processing with a fresh retry budget. -/
def procJob0 : EmailJob :=
  ⟨"p2", "r@x.com", "subj", "body", EmailStatus.processing, 0, 0, 0⟩

/-- Job in terminal failure state `failed`. -/
def failedJob : EmailJob :=
  ⟨"f1", "r@x.com", "subj", "body", EmailStatus.failed, 2, 0, 0⟩

/-- Job in terminal failure state `dead`. -/
def deadJob : EmailJob :=
  ⟨"d1", "r@x.com", "subj", "body", EmailStatus.dead, 3, 0, 0⟩

/-- Job already recorded as sent. -/
def sentJob : EmailJob :=
  ⟨"s1", "r@x.com", "subj", "body", EmailStatus.sent, 0, 0, 0⟩

/-! ### Generic lemmas about the list-embedded SQL semantics -/

/-- Filtering a list by membership of the image of a sublist recovers the
sublist, provided the image of the whole list has no duplicates. -/
theorem filter_mem_map_of_sublist {α β : Type _} [DecidableEq β] (f : α → β)
    {l sub : List α} (hsub : sub.Sublist l) :
    (l.map f).Nodup → l.filter (fun a => decide (f a ∈ sub.map f)) = sub := by
  induction hsub with
  | slnil => intro h; rfl
  | @cons l₁ l₂ a hs ih =>
    intro hnd
    rw [List.map_cons, List.nodup_cons] at hnd
    have hns : f a ∉ l₁.map f := fun hm => hnd.1 ((hs.map f).subset hm)
    rw [List.filter_cons, if_neg (by simpa using hns)]
    exact ih hnd.2
  | @cons₂ l₁ l₂ a hs ih =>
    intro hnd
    rw [List.map_cons, List.nodup_cons] at hnd
    rw [List.filter_cons, if_pos (by simp)]
    have hcongr : ∀ x ∈ l₂, (decide (f x ∈ (a :: l₁).map f)) =
        (decide (f x ∈ l₁.map f)) := by
      intro x hx
      have hne : f x ≠ f a := fun he => hnd.1 (he ▸ List.mem_map_of_mem f hx)
      simp [List.map_cons, List.mem_cons, hne]
    rw [List.filter_congr hcongr, ih hnd.2]

/-- A row returned by `getEmailById store i` has id `i`. -/
theorem getEmailById_id {store : Store} {i : String} {j : EmailJob}
    (h : getEmailById store i = some j) : j.id = i := by
  have hm : j ∈ store.filter (fun j => decide (j.id = i)) :=
    List.mem_of_mem_head? (by simpa [getEmailById] using h)
  simpa using List.of_mem_filter hm

/-- A row returned by `getEmailById` is a row of the store. -/
theorem getEmailById_mem {store : Store} {i : String} {j : EmailJob}
    (h : getEmailById store i = some j) : j ∈ store :=
  List.mem_of_mem_filter (List.mem_of_mem_head? (by simpa [getEmailById] using h))

/-- Lookup commutes with an id-preserving row transformation of the table. -/
theorem getEmailById_map {h : EmailJob → EmailJob} (hid : ∀ j, (h j).id = j.id)
    (store : Store) (x : String) :
    getEmailById (store.map h) x = (getEmailById store x).map h := by
  unfold getEmailById
  have hc : store.filter ((fun j => decide (j.id = x)) ∘ h) =
      store.filter (fun j => decide (j.id = x)) :=
    List.filter_congr (fun j _ => by simp [Function.comp, hid])
  rw [List.filter_map, hc, List.head?_map]

/-- Lookup of an id untouched by `UPDATE ... WHERE id = ?` is unchanged. -/
theorem getEmailById_sqlUpdateWhereId_ne {g : EmailJob → EmailJob}
    (hgid : ∀ j : EmailJob, (g j).id = j.id) (store : Store) {i x : String} (hx : x ≠ i) :
    getEmailById (sqlUpdateWhereId store i g) x = getEmailById store x := by
  have hid : ∀ j : EmailJob, (if j.id = i then g j else j).id = j.id := by
    intro j; by_cases hj : j.id = i <;> simp [hj, hgid]
  rw [sqlUpdateWhereId, getEmailById_map hid]
  cases hrow : getEmailById store x with
  | none => rfl
  | some j =>
    have : j.id = x := getEmailById_id hrow
    simp [this, hx]

/-- Lookup of the id targeted by `UPDATE ... WHERE id = ?` sees `g` applied. -/
theorem getEmailById_sqlUpdateWhereId_self {g : EmailJob → EmailJob}
    (hgid : ∀ j : EmailJob, (g j).id = j.id) (store : Store) (i : String) :
    getEmailById (sqlUpdateWhereId store i g) i = (getEmailById store i).map g := by
  have hid : ∀ j : EmailJob, (if j.id = i then g j else j).id = j.id := by
    intro j; by_cases hj : j.id = i <;> simp [hj, hgid]
  rw [sqlUpdateWhereId, getEmailById_map hid]
  cases hrow : getEmailById store i with
  | none => rfl
  | some j =>
    have : j.id = i := getEmailById_id hrow
    simp [this]

/-- In a table whose ids are pairwise distinct, looking up the id of a row
finds exactly that row. -/
theorem getEmailById_of_mem_nodup {store : Store} {j : EmailJob}
    (hmem : j ∈ store) (hnd : (store.map EmailJob.id).Nodup) :
    getEmailById store j.id = some j := by
  induction store with
  | nil => cases hmem
  | cons a l ih =>
    rw [List.map_cons, List.nodup_cons] at hnd
    rcases List.mem_cons.mp hmem with h | h
    · subst h
      unfold getEmailById
      rw [List.filter_cons, if_pos (by simp)]
      rfl
    · have hne : a.id ≠ j.id := fun he => hnd.1 (he ▸ List.mem_map_of_mem EmailJob.id h)
      unfold getEmailById
      rw [List.filter_cons, if_neg (by simpa using hne)]
      exact ih h hnd.2

/-! ### Characterization of the batch-claim operation -/

/-- Updating an empty id set leaves the table unchanged. -/
theorem sqlUpdateWhereIdIn_nil (store : Store) (g : EmailJob → EmailJob) :
    sqlUpdateWhereIdIn store [] g = store := by
  unfold sqlUpdateWhereIdIn
  simp

/-- The selected rows form a sublist of the table. -/
theorem selectedQueued_sublist (store : Store) (n : Nat) :
    (selectedQueued store n).Sublist store :=
  (List.take_sublist _ _).trans (List.filter_sublist _)

/-- Every selected row is queued. -/
theorem selectedQueued_queued {store : Store} {n : Nat} {j : EmailJob}
    (h : j ∈ selectedQueued store n) : j.status = EmailStatus.queued := by
  have hf : j ∈ store.filter (fun j => decide (j.status = EmailStatus.queued)) :=
    (List.take_sublist _ _).subset h
  simpa using List.of_mem_filter hf

/-- At most `n` rows are selected. -/
theorem selectedQueued_length_le (store : Store) (n : Nat) :
    (selectedQueued store n).length ≤ n := by
  unfold selectedQueued
  simp

/-- Table state after one non-interleaved call of the claim operation. -/
theorem claimStore_eq (store : Store) (n now : Nat) :
    (getQueuedEmailsForProcessing store n now).1 =
      sqlUpdateWhereIdIn store (selectQueuedIds store n) (claimSet now) := by
  unfold getQueuedEmailsForProcessing
  by_cases h : (selectQueuedIds store n).isEmpty
  · rw [if_pos h, List.isEmpty_iff.mp h, sqlUpdateWhereIdIn_nil]
  · rw [if_neg h]
    rfl

/-- Rows returned by one non-interleaved call of the claim operation: the
selected queued rows, updated to `processing`. Pairwise-distinct ids
(the primary key) are required so that the `WHERE id IN` filter of the
`RETURNING` step matches exactly the selected rows. -/
theorem claimReturn_eq (store : Store) (n now : Nat)
    (hnd : (store.map EmailJob.id).Nodup) :
    (getQueuedEmailsForProcessing store n now).2 =
      (selectedQueued store n).map (claimSet now) := by
  unfold getQueuedEmailsForProcessing
  by_cases h : (selectQueuedIds store n).isEmpty
  · rw [if_pos h]
    have hsel : (selectedQueued store n).map EmailJob.id = [] := List.isEmpty_iff.mp h
    rw [List.map_eq_nil_iff.mp hsel]
    rfl
  · rw [if_neg h]
    show (sqlUpdateWhereIdIn store (selectQueuedIds store n) (claimSet now)).filter _ = _
    unfold sqlUpdateWhereIdIn
    have hc : store.filter
        ((fun j => decide (j.id ∈ selectQueuedIds store n)) ∘
          (fun j => if j.id ∈ selectQueuedIds store n then claimSet now j else j)) =
        store.filter (fun j => decide (j.id ∈ selectQueuedIds store n)) := by
      refine List.filter_congr (fun j _ => ?_)
      by_cases hj : j.id ∈ selectQueuedIds store n <;> simp [Function.comp, hj, claimSet]
    rw [List.filter_map, hc]
    rw [show selectQueuedIds store n = (selectedQueued store n).map EmailJob.id from rfl]
    rw [filter_mem_map_of_sublist EmailJob.id (selectedQueued_sublist store n) hnd]
    refine List.map_congr_left (fun j hj => ?_)
    have : j.id ∈ (selectedQueued store n).map EmailJob.id := List.mem_map_of_mem _ hj
    simp [this]

/-- With no queued row in the table, the claim operation returns the empty
list and leaves the table unchanged. -/
theorem claim_empty (store : Store) (n now : Nat)
    (h : store.filter (fun j => decide (j.status = EmailStatus.queued)) = []) :
    getQueuedEmailsForProcessing store n now = (store, []) := by
  unfold getQueuedEmailsForProcessing
  have hids : selectQueuedIds store n = [] := by
    unfold selectQueuedIds selectedQueued
    rw [h]
    simp
  rw [hids]
  rfl

/-! ### Characterization of the queue processor -/

/-- The combined outcome transformation preserves the row id. -/
theorem outcomeSet_id (sendOk : EmailJob → Bool) (now : Nat) (job : EmailJob) :
    ∀ r : EmailJob, (outcomeSet sendOk now job r).id = r.id := by
  intro r
  unfold outcomeSet
  split_ifs <;> rfl

/-- One processing step is the id-keyed update with the combined outcome. -/
theorem processOneJob_eq (sendOk : EmailJob → Bool) (store : Store) (job : EmailJob)
    (now : Nat) :
    processOneJob sendOk store job now =
      sqlUpdateWhereId store job.id (outcomeSet sendOk now job) := by
  unfold processOneJob updateEmailStatus handleFailedJob outcomeSet
  by_cases h1 : sendOk job
  · simp [h1]
  · by_cases h2 : 3 ≤ job.retry_count <;> simp [h1, h2]

/-- The processing fold leaves rows of unprocessed ids untouched. -/
theorem foldProcess_not_mem (sendOk : EmailJob → Bool) (now : Nat) :
    ∀ (jobs : List EmailJob) (s : Store) (x : String), x ∉ jobs.map EmailJob.id →
      getEmailById (jobs.foldl (fun s j => processOneJob sendOk s j now) s) x =
        getEmailById s x := by
  intro jobs
  induction jobs with
  | nil => intro s x _; rfl
  | cons a l ih =>
    intro s x hx
    rw [List.map_cons, List.mem_cons] at hx
    push_neg at hx
    rw [List.foldl_cons, ih _ x hx.2, processOneJob_eq,
      getEmailById_sqlUpdateWhereId_ne (outcomeSet_id sendOk now a) s hx.1]

/-- Row of a processed job after the fold: its own outcome applied to its
row, independently of every sibling job's outcome. -/
theorem foldProcess_mem (sendOk : EmailJob → Bool) (now : Nat) :
    ∀ (jobs : List EmailJob) (s : Store) (j : EmailJob), j ∈ jobs →
      (jobs.map EmailJob.id).Nodup →
      getEmailById (jobs.foldl (fun s j => processOneJob sendOk s j now) s) j.id =
        (getEmailById s j.id).map (outcomeSet sendOk now j) := by
  intro jobs
  induction jobs with
  | nil => intro s j h; cases h
  | cons a l ih =>
    intro s j hmem hnd
    rw [List.map_cons, List.nodup_cons] at hnd
    rw [List.foldl_cons]
    rcases List.mem_cons.mp hmem with h | h
    · subst h
      rw [foldProcess_not_mem sendOk now l _ j.id hnd.1, processOneJob_eq,
        getEmailById_sqlUpdateWhereId_self (outcomeSet_id sendOk now j) s j.id]
    · have hne : j.id ≠ a.id := fun he => hnd.1 (he ▸ List.mem_map_of_mem EmailJob.id h)
      rw [ih _ j h hnd.2, processOneJob_eq,
        getEmailById_sqlUpdateWhereId_ne (outcomeSet_id sendOk now a) s hne]

/-- Lookup of an id outside the claimed id set is unchanged by the claim
update. -/
theorem getEmailById_sqlUpdateWhereIdIn_not_mem {g : EmailJob → EmailJob}
    (hgid : ∀ j : EmailJob, (g j).id = j.id) (store : Store) {ids : List String}
    {x : String} (hx : x ∉ ids) :
    getEmailById (sqlUpdateWhereIdIn store ids g) x = getEmailById store x := by
  have hid : ∀ j : EmailJob, (if j.id ∈ ids then g j else j).id = j.id := by
    intro j; by_cases hj : j.id ∈ ids <;> simp [hj, hgid]
  rw [sqlUpdateWhereIdIn, getEmailById_map hid]
  cases hrow : getEmailById store x with
  | none => rfl
  | some j =>
    have : j.id = x := getEmailById_id hrow
    simp [this, hx]

/-- Ids of the claimed batch are pairwise distinct. -/
theorem claimReturn_ids_nodup (store : Store) (n now : Nat)
    (hnd : (store.map EmailJob.id).Nodup) :
    ((getQueuedEmailsForProcessing store n now).2.map EmailJob.id).Nodup := by
  rw [claimReturn_eq store n now hnd, List.map_map]
  have he : (selectedQueued store n).map (EmailJob.id ∘ claimSet now) =
      (selectedQueued store n).map EmailJob.id :=
    List.map_congr_left (fun j _ => rfl)
  rw [he]
  exact ((selectedQueued_sublist store n).map EmailJob.id).nodup hnd

/-- A claimed row is found in the post-claim table by its id. -/
theorem getEmailById_claim_claimed (store : Store) (n now : Nat)
    (hnd : (store.map EmailJob.id).Nodup) {c : EmailJob}
    (hc : c ∈ (getQueuedEmailsForProcessing store n now).2) :
    getEmailById (getQueuedEmailsForProcessing store n now).1 c.id = some c := by
  rw [claimReturn_eq store n now hnd] at hc
  rcases List.mem_map.mp hc with ⟨j0, hj0, hj0c⟩
  have hj0mem : j0 ∈ store := (selectedQueued_sublist store n).subset hj0
  have hcid : c.id = j0.id := by rw [← hj0c]; rfl
  have hid : ∀ j : EmailJob,
      (if j.id ∈ selectQueuedIds store n then claimSet now j else j).id = j.id := by
    intro j; by_cases hj : j.id ∈ selectQueuedIds store n <;> simp [hj, claimSet]
  rw [claimStore_eq store n now, sqlUpdateWhereIdIn, hcid, getEmailById_map hid,
    getEmailById_of_mem_nodup hj0mem hnd]
  have hj0in : j0.id ∈ selectQueuedIds store n := List.mem_map_of_mem EmailJob.id hj0
  simp [hj0in, hj0c]

/-- Lookup of an unclaimed id is unchanged by the claim operation. -/
theorem getEmailById_claim_unclaimed (store : Store) (n now : Nat) {x : String}
    (hx : x ∉ selectQueuedIds store n) :
    getEmailById (getQueuedEmailsForProcessing store n now).1 x = getEmailById store x := by
  rw [claimStore_eq store n now]
  exact getEmailById_sqlUpdateWhereIdIn_not_mem (g := claimSet now) (fun j => rfl) store hx

/-- Claimed ids coincide with the selected ids. -/
theorem claimReturn_ids_eq (store : Store) (n now : Nat)
    (hnd : (store.map EmailJob.id).Nodup) :
    (getQueuedEmailsForProcessing store n now).2.map EmailJob.id =
      selectQueuedIds store n := by
  rw [claimReturn_eq store n now hnd, List.map_map]
  exact List.map_congr_left (fun j _ => rfl)

/-- Final table of a processor run: the per-job fold over the claimed batch,
starting from the post-claim table. -/
theorem processQueuedEmails_fst (sendOk : EmailJob → Bool) (store : Store) (now : Nat) :
    (processQueuedEmails sendOk store now).1 =
      (getQueuedEmailsForProcessing store 10 now).2.foldl
        (fun s j => processOneJob sendOk s j now)
        (getQueuedEmailsForProcessing store 10 now).1 := by
  unfold processQueuedEmails
  by_cases h : (getQueuedEmailsForProcessing store 10 now).2.isEmpty
  · rw [if_pos h, List.isEmpty_iff.mp h]
    rfl
  · rw [if_neg h]

/-- Reported count of a processor run: the size of the claimed batch. -/
theorem processQueuedEmails_snd (sendOk : EmailJob → Bool) (store : Store) (now : Nat) :
    (processQueuedEmails sendOk store now).2 =
      (getQueuedEmailsForProcessing store 10 now).2.length := by
  unfold processQueuedEmails
  by_cases h : (getQueuedEmailsForProcessing store 10 now).2.isEmpty
  · rw [if_pos h, List.isEmpty_iff.mp h]
    rfl
  · rw [if_neg h]

/-- Row of a claimed job after the whole processor run: its own dispatch
outcome applied to its claimed row. -/
theorem processQueued_final_claimed (sendOk : EmailJob → Bool) (store : Store) (now : Nat)
    (hnd : (store.map EmailJob.id).Nodup) {c : EmailJob}
    (hc : c ∈ (getQueuedEmailsForProcessing store 10 now).2) :
    getEmailById (processQueuedEmails sendOk store now).1 c.id =
      some (outcomeSet sendOk now c c) := by
  rw [processQueuedEmails_fst,
    foldProcess_mem sendOk now _ _ c hc (claimReturn_ids_nodup store 10 now hnd),
    getEmailById_claim_claimed store 10 now hnd hc]
  rfl

/-- Rows whose id is not selected are untouched by the whole processor run. -/
theorem processQueued_final_unclaimed (sendOk : EmailJob → Bool) (store : Store)
    (now : Nat) (hnd : (store.map EmailJob.id).Nodup) {x : String}
    (hx : x ∉ selectQueuedIds store 10) :
    getEmailById (processQueuedEmails sendOk store now).1 x = getEmailById store x := by
  rw [processQueuedEmails_fst,
    foldProcess_not_mem sendOk now _ _ x (by rw [claimReturn_ids_eq store 10 now hnd]; exact hx),
    getEmailById_claim_unclaimed store 10 now hx]

/-! ### Webhook lemmas -/

/-- With the per-id update succeeding, the fallible per-event handler agrees
with the infallible one. -/
theorem processWebhookEventF_ok {updateOk : String → Bool} {evt : MailjetEvent}
    (h : updateOk evt.CustomID = true) (store : Store) (now : Nat) :
    processWebhookEventF updateOk store evt now = processWebhookEvent store evt now := by
  unfold processWebhookEventF processWebhookEvent
  by_cases h1 : evt.CustomID = ""
  · simp [h1]
  · cases webhookStatus evt.event <;> simp [h1, h]

/-- With the per-id update failing, the fallible per-event handler applies
nothing. -/
theorem processWebhookEventF_fail {updateOk : String → Bool} {evt : MailjetEvent}
    (h : updateOk evt.CustomID = false) (store : Store) (now : Nat) :
    processWebhookEventF updateOk store evt now = store := by
  unfold processWebhookEventF
  by_cases h1 : evt.CustomID = ""
  · simp [h1]
  · cases webhookStatus evt.event <;> simp [h1, h]

/-- The table produced by the fallible webhook run equals the infallible run
restricted to the events whose own update succeeds: one event's failure never
prevents another event's update from being applied. -/
theorem processMailjetWebhookF_store (updateOk : String → Bool) :
    ∀ (events : List MailjetEvent) (store : Store) (now : Nat),
      (processMailjetWebhookF updateOk store events now).1 =
        (processMailjetWebhook store
          (events.filter (fun e => updateOk e.CustomID)) now).1 := by
  intro events
  induction events with
  | nil => intro store now; rfl
  | cons e l ih =>
    intro store now
    simp only [processMailjetWebhookF, processMailjetWebhook, List.foldl_cons,
      List.filter_cons] at ih ⊢
    by_cases hup : updateOk e.CustomID
    · rw [if_pos hup, List.foldl_cons, processWebhookEventF_ok hup]
      exact ih (processWebhookEvent store e now) now
    · rw [if_neg hup, processWebhookEventF_fail (Bool.not_eq_true _ ▸ hup)]
      exact ih store now

/-- HTTP status of the webhook route: 500 exactly when some event's attempted
update failed, 200 otherwise. -/
theorem mailjetWebhookHandlerStatus_eq (updateOk : String → Bool) (store : Store)
    (events : List MailjetEvent) (now : Nat) :
    mailjetWebhookHandlerStatus updateOk store events now =
      if events.any (webhookEventAttemptFails updateOk) then 500 else 200 := by
  unfold mailjetWebhookHandlerStatus processMailjetWebhookF
  by_cases h : events.any (webhookEventAttemptFails updateOk) <;> simp [h]

/-! ### Requeue lemmas -/

/-- Requeue of an eligible job: the row is set to `queued` with the chosen
retry count, and the updated row is returned. -/
theorem requeue_eligible {store : Store} {i : String} {job : EmailJob}
    (reset : Bool) (now : Nat) (hj : getEmailById store i = some job)
    (he : job.status = EmailStatus.failed ∨ job.status = EmailStatus.dead) :
    requeueEmailJob store i reset now =
      (sqlUpdateWhereId store i
        (fun j => { j with status := EmailStatus.queued,
                           retry_count := if reset then 0 else job.retry_count,
                           updated_at := now }),
       some { job with status := EmailStatus.queued,
                       retry_count := if reset then 0 else job.retry_count,
                       updated_at := now }) := by
  unfold requeueEmailJob
  rw [hj]
  have hcond : ¬(job.status ≠ EmailStatus.failed ∧ job.status ≠ EmailStatus.dead) := by
    rcases he with h | h <;> simp [h]
  dsimp only
  rw [if_neg hcond]
  simp only [Prod.mk.injEq]
  refine ⟨trivial, ?_⟩
  rw [getEmailById_sqlUpdateWhereId_self
    (g := fun j => { j with status := EmailStatus.queued,
                            retry_count := if reset then 0 else job.retry_count,
                            updated_at := now })
    (fun j => rfl) store i, hj]
  rfl

/-! ### Frame lemmas: immutable fields -/

/-- Frame of a row-wise table transformation that preserves the frame. -/
theorem frame_map {h : EmailJob → EmailJob} (hf : ∀ j, frameOf (h j) = frameOf j)
    (store : Store) : (store.map h).map frameOf = store.map frameOf := by
  rw [List.map_map]
  exact List.map_congr_left (fun j _ => hf j)

/-- Frame preservation of `UPDATE ... WHERE id = ?` for frame-preserving `g`. -/
theorem frame_sqlUpdateWhereId {g : EmailJob → EmailJob}
    (hg : ∀ j, frameOf (g j) = frameOf j) (store : Store) (i : String) :
    (sqlUpdateWhereId store i g).map frameOf = store.map frameOf := by
  refine frame_map (fun j => ?_) store
  by_cases h : j.id = i <;> simp [h, hg]

/-- Frame preservation of `UPDATE ... WHERE id IN (...)` for frame-preserving
`g`. -/
theorem frame_sqlUpdateWhereIdIn {g : EmailJob → EmailJob}
    (hg : ∀ j, frameOf (g j) = frameOf j) (store : Store) (ids : List String) :
    (sqlUpdateWhereIdIn store ids g).map frameOf = store.map frameOf := by
  refine frame_map (fun j => ?_) store
  by_cases h : j.id ∈ ids <;> simp [h, hg]

/-! ### Constraint lemmas (migrated table) -/

/-- The dead-letter branch of `handleFailedJob`, run against the migrated
table with its CHECK constraint, fails at the storage layer whenever the
targeted row exists. -/
theorem handleFailedJobChecked_none {store : Store} {job : EmailJob}
    {maxRetries now : Nat} (hk : maxRetries ≤ job.retry_count) {r : EmailJob}
    (hr : r ∈ store) (hid : r.id = job.id) :
    handleFailedJobChecked store job maxRetries now = none := by
  unfold handleFailedJobChecked handleFailedJob
  rw [if_pos hk]
  unfold runChecked
  have hbad : ¬ storeCheckOk (sqlUpdateWhereId store job.id
      (fun j => { j with status := EmailStatus.dead, updated_at := now })) = true := by
    intro hall
    unfold storeCheckOk at hall
    rw [List.all_eq_true] at hall
    have hmem := List.mem_map_of_mem
      (fun j => if j.id = job.id then
        ({ j with status := EmailStatus.dead, updated_at := now } : EmailJob) else j) hr
    have := hall _ hmem
    simp only [hid] at this
    simp [statusCheckOk] at this
  rw [if_neg hbad]

/-! ### Claim theorems -/

/-- C1: the claim about concurrent claim exclusivity fails on the code. The
select and the update of `getQueuedEmailsForProcessing` are two separate SQL
statements with no transaction, and the update has no `status = 'queued'`
guard; interleaving two invocations as select-A, select-B, update-A,
update-B against a store with one queued job makes both invocations return
that same job as claimed, contradicting both the claimed disjointness and
the function's own comment that the update locks the rows. -/
theorem claim_batch_race_code_bug :
    ((interleavedClaims raceStore 10 1 2).2.1.map EmailJob.id = ["j1"]) ∧
    ((interleavedClaims raceStore 10 1 2).2.2.map EmailJob.id = ["j1"]) := by
  decide

/-- C2: `handleFailedJob` with current retry count `k` dead-letters the row
(leaving `retry_count` untouched) when `k ≥ maxRetries`, and requeues it
with `retry_count = k + 1` when `k < maxRetries`; rows with other ids are
untouched, and the processor's failure branch invokes it with
`maxRetries = 3`. -/
theorem handleFailedJob_retry_policy (store : Store) (job : EmailJob)
    (maxRetries now : Nat) :
    (maxRetries ≤ job.retry_count →
      getEmailById (handleFailedJob store job maxRetries now) job.id =
        (getEmailById store job.id).map
          (fun r => { r with status := EmailStatus.dead, updated_at := now })) ∧
    (job.retry_count < maxRetries →
      getEmailById (handleFailedJob store job maxRetries now) job.id =
        (getEmailById store job.id).map
          (fun r => { r with status := EmailStatus.queued,
                             retry_count := job.retry_count + 1, updated_at := now })) ∧
    (∀ x : String, x ≠ job.id →
      getEmailById (handleFailedJob store job maxRetries now) x =
        getEmailById store x) ∧
    (∀ (sendOk : EmailJob → Bool) (s : Store) (j : EmailJob) (t : Nat),
      sendOk j = false → processOneJob sendOk s j t = handleFailedJob s j 3 t) := by
  refine ⟨fun hk => ?_, fun hk => ?_, fun x hx => ?_, fun sendOk s j t hs => ?_⟩
  · unfold handleFailedJob
    rw [if_pos hk]
    apply getEmailById_sqlUpdateWhereId_self
    intro j
    rfl
  · unfold handleFailedJob
    rw [if_neg (Nat.not_le_of_lt hk)]
    apply getEmailById_sqlUpdateWhereId_self
    intro j
    rfl
  · unfold handleFailedJob
    by_cases hk : maxRetries ≤ job.retry_count
    · rw [if_pos hk]
      apply getEmailById_sqlUpdateWhereId_ne _ store hx
      intro j
      rfl
    · rw [if_neg hk]
      apply getEmailById_sqlUpdateWhereId_ne _ store hx
      intro j
      rfl
  · unfold processOneJob
    rw [hs]
    simp

/-- Witness for C2: both branches of the retry policy at concrete inputs. -/
theorem handleFailedJob_retry_policy_witness :
    (3 ≤ procJob3.retry_count ∧
      getEmailById (handleFailedJob [procJob3] procJob3 3 5) procJob3.id =
        (getEmailById [procJob3] procJob3.id).map
          (fun r => { r with status := EmailStatus.dead, updated_at := 5 })) ∧
    (procJob0.retry_count < 3 ∧
      getEmailById (handleFailedJob [procJob0] procJob0 3 5) procJob0.id =
        (getEmailById [procJob0] procJob0.id).map
          (fun r => { r with status := EmailStatus.queued,
                             retry_count := procJob0.retry_count + 1,
                             updated_at := 5 })) :=
  ⟨⟨by decide, (handleFailedJob_retry_policy [procJob3] procJob3 3 5).1 (by decide)⟩,
   ⟨by decide, (handleFailedJob_retry_policy [procJob0] procJob0 3 5).2.1 (by decide)⟩⟩

/-- C3: one non-interleaved call of the batch-claim operation selects at most
`n` queued rows, flips exactly those to `processing`, returns exactly their
updated full rows, leaves every other row unchanged, and returns the empty
list leaving the table untouched when nothing is queued; concretely, against
15 queued jobs with limit 10 the first call claims 10 rows (all
`processing`) and a second call claims the remaining 5. -/
theorem claim_batch_spec (store : Store) (n now : Nat)
    (hnd : (store.map EmailJob.id).Nodup) :
    ((getQueuedEmailsForProcessing store n now).2 =
        (selectedQueued store n).map (claimSet now)) ∧
    ((getQueuedEmailsForProcessing store n now).2.length ≤ n) ∧
    (∀ c ∈ (getQueuedEmailsForProcessing store n now).2,
        c.status = EmailStatus.processing) ∧
    (∀ j ∈ selectedQueued store n, j.status = EmailStatus.queued) ∧
    ((getQueuedEmailsForProcessing store n now).1 =
        sqlUpdateWhereIdIn store (selectQueuedIds store n) (claimSet now)) ∧
    (∀ x : String, x ∉ selectQueuedIds store n →
        getEmailById (getQueuedEmailsForProcessing store n now).1 x =
          getEmailById store x) ∧
    (store.filter (fun j => decide (j.status = EmailStatus.queued)) = [] →
        getQueuedEmailsForProcessing store n now = (store, [])) ∧
    (((getQueuedEmailsForProcessing demoStore15 10 1).2.map EmailJob.id =
        ["j1", "j2", "j3", "j4", "j5", "j6", "j7", "j8", "j9", "j10"]) ∧
      ((getQueuedEmailsForProcessing demoStore15 10 1).2.all
        (fun c => decide (c.status = EmailStatus.processing)) = true) ∧
      ((getQueuedEmailsForProcessing
          (getQueuedEmailsForProcessing demoStore15 10 1).1 10 2).2.map EmailJob.id =
        ["j11", "j12", "j13", "j14", "j15"]) ∧
      ((getQueuedEmailsForProcessing
          (getQueuedEmailsForProcessing demoStore15 10 1).1 10 2).2.all
        (fun c => decide (c.status = EmailStatus.processing)) = true)) := by
  refine ⟨claimReturn_eq store n now hnd, ?_, ?_, ?_, claimStore_eq store n now,
    fun x hx => getEmailById_claim_unclaimed store n now hx,
    claim_empty store n now, by decide⟩
  · rw [claimReturn_eq store n now hnd, List.length_map]
    exact selectedQueued_length_le store n
  · intro c hc
    rw [claimReturn_eq store n now hnd] at hc
    rcases List.mem_map.mp hc with ⟨j0, _, hj0c⟩
    rw [← hj0c]
    rfl
  · intro j hj
    exact selectedQueued_queued hj

/-- Witness for C3: the claim-batch specification at the 15-job store. -/
theorem claim_batch_spec_witness :
    ((demoStore15.map EmailJob.id).Nodup) ∧
    ((getQueuedEmailsForProcessing demoStore15 10 1).2 =
        (selectedQueued demoStore15 10).map (claimSet 1)) ∧
    ((getQueuedEmailsForProcessing demoStore15 10 1).2.length ≤ 10) :=
  ⟨by decide,
   (claim_batch_spec demoStore15 10 1 (by decide)).1,
   (claim_batch_spec demoStore15 10 1 (by decide)).2.1⟩

/-- C4: `requeueEmailJob` returns null and leaves the table unchanged when
the job is missing or not in `failed`/`dead`; on a `failed`/`dead` job it
sets the row to `queued` with `retry_count = 0` when `resetRetries` is true
and with `retry_count` unchanged when false, returning the updated row. -/
theorem requeue_spec (store : Store) (i : String) (reset : Bool) (now : Nat) :
    (getEmailById store i = none →
      requeueEmailJob store i reset now = (store, none)) ∧
    (∀ job : EmailJob, getEmailById store i = some job →
      job.status ≠ EmailStatus.failed → job.status ≠ EmailStatus.dead →
      requeueEmailJob store i reset now = (store, none)) ∧
    (∀ job : EmailJob, getEmailById store i = some job →
      (job.status = EmailStatus.failed ∨ job.status = EmailStatus.dead) →
      requeueEmailJob store i reset now =
        (sqlUpdateWhereId store i
          (fun j => { j with status := EmailStatus.queued,
                             retry_count := if reset then 0 else job.retry_count,
                             updated_at := now }),
         some { job with status := EmailStatus.queued,
                         retry_count := if reset then 0 else job.retry_count,
                         updated_at := now })) := by
  refine ⟨fun hn => ?_, fun job hj hnf hnd => ?_, fun job hj he => requeue_eligible reset now hj he⟩
  · unfold requeueEmailJob
    rw [hn]
  · unfold requeueEmailJob
    rw [hj]
    dsimp only
    rw [if_pos ⟨hnf, hnd⟩]

/-- Witness for C4: requeue of a dead job without reset keeps its retry
count; requeue of a sent job is refused. -/
theorem requeue_spec_witness :
    (getEmailById [sentJob, deadJob] "d1" = some deadJob ∧
      (deadJob.status = EmailStatus.failed ∨ deadJob.status = EmailStatus.dead) ∧
      requeueEmailJob [sentJob, deadJob] "d1" false 7 =
        (sqlUpdateWhereId [sentJob, deadJob] "d1"
          (fun j => { j with status := EmailStatus.queued,
                             retry_count := if false then 0 else deadJob.retry_count,
                             updated_at := 7 }),
         some { deadJob with status := EmailStatus.queued,
                             retry_count := if false then 0 else deadJob.retry_count,
                             updated_at := 7 })) ∧
    (getEmailById [sentJob, deadJob] "s1" = some sentJob ∧
      sentJob.status ≠ EmailStatus.failed ∧ sentJob.status ≠ EmailStatus.dead ∧
      requeueEmailJob [sentJob, deadJob] "s1" true 7 = ([sentJob, deadJob], none)) :=
  ⟨⟨by decide, by decide,
    (requeue_spec [sentJob, deadJob] "d1" false 7).2.2 deadJob (by decide) (by decide)⟩,
   ⟨by decide, by decide, by decide,
    (requeue_spec [sentJob, deadJob] "s1" true 7).2.1 sentJob (by decide) (by decide) (by decide)⟩⟩

/-- C5: the queue processor handles each claimed job's dispatch outcome
locally and independently — for every dispatch-outcome oracle the run
completes with a result, a succeeding job's row becomes `sent`, a failing
job's row is settled by the retry/dead-letter policy using only that job's
own data, rows outside the claimed batch are untouched — and a run that
claims nothing returns `processed = 0` with the table unchanged. The store
itself is modelled as reliable, so the claim step (the only remaining
failure source) cannot fail here. -/
theorem processor_spec (sendOk : EmailJob → Bool) (store : Store) (now : Nat)
    (hnd : (store.map EmailJob.id).Nodup) :
    (store.filter (fun j => decide (j.status = EmailStatus.queued)) = [] →
      processQueuedEmails sendOk store now = (store, 0)) ∧
    (∀ c ∈ (getQueuedEmailsForProcessing store 10 now).2,
      (sendOk c = true →
        getEmailById (processQueuedEmails sendOk store now).1 c.id =
          some { c with status := EmailStatus.sent, updated_at := now }) ∧
      (sendOk c = false → 3 ≤ c.retry_count →
        getEmailById (processQueuedEmails sendOk store now).1 c.id =
          some { c with status := EmailStatus.dead, updated_at := now }) ∧
      (sendOk c = false → c.retry_count < 3 →
        getEmailById (processQueuedEmails sendOk store now).1 c.id =
          some { c with status := EmailStatus.queued,
                        retry_count := c.retry_count + 1, updated_at := now })) ∧
    (∀ x : String, x ∉ selectQueuedIds store 10 →
      getEmailById (processQueuedEmails sendOk store now).1 x =
        getEmailById store x) := by
  refine ⟨fun hq => ?_, fun c hc => ?_,
    fun x hx => processQueued_final_unclaimed sendOk store now hnd hx⟩
  · have h0 : getQueuedEmailsForProcessing store 10 now = (store, []) :=
      claim_empty store 10 now hq
    simp [processQueuedEmails, h0]
  · have hfin := processQueued_final_claimed sendOk store now hnd hc
    refine ⟨fun hs => ?_, fun hs hk => ?_, fun hs hk => ?_⟩
    · rw [hfin]
      simp [outcomeSet, hs]
    · rw [hfin]
      simp [outcomeSet, hs, hk]
    · rw [hfin]
      simp [outcomeSet, hs, Nat.not_le.mpr hk]

/-- Witness for C5: a two-job batch where the first job's dispatch succeeds
and the second fails and is requeued with its counter incremented. -/
theorem processor_spec_witness :
    (([mkJob 1, mkJob 2].map EmailJob.id).Nodup) ∧
    (claimSet 4 (mkJob 2) ∈ (getQueuedEmailsForProcessing [mkJob 1, mkJob 2] 10 4).2) ∧
    ((fun j => j.id == "j1") (claimSet 4 (mkJob 2)) = false) ∧
    ((claimSet 4 (mkJob 2)).retry_count < 3) ∧
    getEmailById (processQueuedEmails (fun j => j.id == "j1") [mkJob 1, mkJob 2] 4).1
        (claimSet 4 (mkJob 2)).id =
      some { claimSet 4 (mkJob 2) with
             status := EmailStatus.queued,
             retry_count := (claimSet 4 (mkJob 2)).retry_count + 1,
             updated_at := 4 } :=
  ⟨by decide, by decide, by decide, by decide,
    ((processor_spec (fun j => j.id == "j1") [mkJob 1, mkJob 2] 4 (by decide)).2.1
      (claimSet 4 (mkJob 2)) (by decide)).2.2 (by decide) (by decide)⟩

/-- C6: the webhook ingestor maps sent/open/click to `sent` and
bounce/spam/blocked to `failed` on the correlated job, silently skips events
with an empty correlation id, and leaves the table (hence the target job's
status) unchanged on an unrecognized event type without producing an
error. -/
theorem webhook_event_mapping (store : Store) (evt : MailjetEvent) (now : Nat) :
    (evt.CustomID = "" → processWebhookEvent store evt now = store) ∧
    (webhookStatus evt.event = none → processWebhookEvent store evt now = store) ∧
    (evt.CustomID ≠ "" →
      (evt.event = "sent" ∨ evt.event = "open" ∨ evt.event = "click") →
      getEmailById (processWebhookEvent store evt now) evt.CustomID =
        (getEmailById store evt.CustomID).map
          (fun r => { r with status := EmailStatus.sent, updated_at := now })) ∧
    (evt.CustomID ≠ "" →
      (evt.event = "bounce" ∨ evt.event = "spam" ∨ evt.event = "blocked") →
      getEmailById (processWebhookEvent store evt now) evt.CustomID =
        (getEmailById store evt.CustomID).map
          (fun r => { r with status := EmailStatus.failed, updated_at := now })) := by
  refine ⟨fun h => ?_, fun h => ?_, fun hne he => ?_, fun hne he => ?_⟩
  · unfold processWebhookEvent
    rw [if_pos h]
  · unfold processWebhookEvent
    by_cases h1 : evt.CustomID = ""
    · rw [if_pos h1]
    · rw [if_neg h1, h]
  · have hws : webhookStatus evt.event = some EmailStatus.sent := by
      unfold webhookStatus
      rw [if_pos he]
    unfold processWebhookEvent
    rw [if_neg hne, hws]
    apply getEmailById_sqlUpdateWhereId_self
    intro j
    rfl
  · have hpos : ¬(evt.event = "sent" ∨ evt.event = "open" ∨ evt.event = "click") := by
      rcases he with h | h | h <;> rw [h] <;> decide
    have hws : webhookStatus evt.event = some EmailStatus.failed := by
      unfold webhookStatus
      rw [if_neg hpos, if_pos he]
    unfold processWebhookEvent
    rw [if_neg hne, hws]
    apply getEmailById_sqlUpdateWhereId_self
    intro j
    rfl

/-- Witness for C6: an open event marks the correlated processing job sent;
a bounce event marks it failed. -/
theorem webhook_event_mapping_witness :
    (("p1" : String) ≠ "" ∧
      getEmailById (processWebhookEvent [procJob3] ⟨"open", "p1"⟩ 6) "p1" =
        (getEmailById [procJob3] "p1").map
          (fun r => { r with status := EmailStatus.sent, updated_at := 6 })) ∧
    (("p2" : String) ≠ "" ∧
      getEmailById (processWebhookEvent [procJob0] ⟨"bounce", "p2"⟩ 6) "p2" =
        (getEmailById [procJob0] "p2").map
          (fun r => { r with status := EmailStatus.failed, updated_at := 6 })) :=
  ⟨⟨by decide,
    (webhook_event_mapping [procJob3] ⟨"open", "p1"⟩ 6).2.2.1 (by decide) (by decide)⟩,
   ⟨by decide,
    (webhook_event_mapping [procJob0] ⟨"bounce", "p2"⟩ 6).2.2.2 (by decide) (by decide)⟩⟩

/-- C7 counterexample: with a single bounce event whose status update fails
at the store, the controller's `Promise.all` rejects and the route handler
answers 500, not the success acknowledgment the claim asserts is returned
regardless of per-item outcomes. -/
theorem webhook_ack_counterexample :
    mailjetWebhookHandlerStatus (fun _ => false) [procJob0] [⟨"bounce", "p2"⟩] 3 = 500 ∧
    (processMailjetWebhookF (fun _ => false) [procJob0] [⟨"bounce", "p2"⟩] 3).2 = false := by
  decide

/-- C7 amended: events are processed independently — the resulting table is
exactly the one obtained by applying the events whose own update succeeds,
so one event's failure never blocks a sibling's update — but the route
returns the 200 acknowledgment only when no attempted update failed, and
500 when any did. -/
theorem webhook_independence_amended :
    (∀ (updateOk : String → Bool) (events : List MailjetEvent) (store : Store) (now : Nat),
      (processMailjetWebhookF updateOk store events now).1 =
        (processMailjetWebhook store
          (events.filter (fun e => updateOk e.CustomID)) now).1) ∧
    (∀ (updateOk : String → Bool) (store : Store) (events : List MailjetEvent) (now : Nat),
      mailjetWebhookHandlerStatus updateOk store events now =
        if events.any (webhookEventAttemptFails updateOk) then 500 else 200) :=
  ⟨fun u es s n => processMailjetWebhookF_store u es s n,
   fun u s es n => mailjetWebhookHandlerStatus_eq u s es n⟩

/-- C8 counterexample: a bounce webhook event against a job already in the
terminal `dead` state rewrites it to `failed` — the transition dead→failed
is not an edge of the §4.3 state machine, refuting the claim that every
status mutation follows the machine. -/
theorem state_machine_counterexample :
    getEmailById (processWebhookEvent [deadJob] ⟨"bounce", "d1"⟩ 9) "d1" =
      some { deadJob with status := EmailStatus.failed, updated_at := 9 } ∧
    specAllowedEdge EmailStatus.dead EmailStatus.failed = false := by
  decide

/-- C8 amended: the claim operation, the processor's outcome updates and the
admin requeue move jobs only along §4.3 edges (queued→processing,
processing→sent/queued/dead composed through the claim, failed/dead→queued),
but the webhook status update is unconditional: it rewrites the correlated
row to the mapped status whatever the row's current status, including `sent`
and `dead`. -/
theorem state_machine_amended :
    (∀ (store : Store) (n now : Nat), (store.map EmailJob.id).Nodup →
      ∀ x : String,
        getEmailById (getQueuedEmailsForProcessing store n now).1 x ≠
          getEmailById store x →
        ∃ j : EmailJob, getEmailById store x = some j ∧
          j.status = EmailStatus.queued ∧
          getEmailById (getQueuedEmailsForProcessing store n now).1 x =
            some (claimSet now j) ∧
          specAllowedEdge j.status (claimSet now j).status = true) ∧
    (∀ (sendOk : EmailJob → Bool) (store : Store) (now : Nat),
      (store.map EmailJob.id).Nodup →
      ∀ x : String,
        getEmailById (processQueuedEmails sendOk store now).1 x ≠
          getEmailById store x →
        ∃ j r : EmailJob, getEmailById store x = some j ∧
          getEmailById (processQueuedEmails sendOk store now).1 x = some r ∧
          j.status = EmailStatus.queued ∧
          specAllowedEdge j.status EmailStatus.processing = true ∧
          specAllowedEdge EmailStatus.processing r.status = true) ∧
    (∀ (store : Store) (i : String) (reset : Bool) (now : Nat) (x : String),
        getEmailById (requeueEmailJob store i reset now).1 x ≠ getEmailById store x →
        ∃ j : EmailJob, getEmailById store x = some j ∧
          (j.status = EmailStatus.failed ∨ j.status = EmailStatus.dead) ∧
          ∃ r : EmailJob, getEmailById (requeueEmailJob store i reset now).1 x = some r ∧
            r.status = EmailStatus.queued ∧
            specAllowedEdge j.status r.status = true) ∧
    (∀ (store : Store) (evt : MailjetEvent) (now : Nat) (st : EmailStatus),
        webhookStatus evt.event = some st → evt.CustomID ≠ "" →
        getEmailById (processWebhookEvent store evt now) evt.CustomID =
          (getEmailById store evt.CustomID).map
            (fun r => { r with status := st, updated_at := now })) := by
  refine ⟨?_, ?_, ?_, ?_⟩
  · intro store n now hnd x hch
    by_cases hx : x ∈ selectQueuedIds store n
    · rcases List.mem_map.mp hx with ⟨j0, hj0, hj0x⟩
      have hj0mem : j0 ∈ store := (selectedQueued_sublist store n).subset hj0
      have hpre : getEmailById store x = some j0 := by
        rw [← hj0x]
        exact getEmailById_of_mem_nodup hj0mem hnd
      have hq := selectedQueued_queued hj0
      have hc : claimSet now j0 ∈ (getQueuedEmailsForProcessing store n now).2 := by
        rw [claimReturn_eq store n now hnd]
        exact List.mem_map_of_mem _ hj0
      have hpost := getEmailById_claim_claimed store n now hnd hc
      refine ⟨j0, hpre, hq, ?_, by rw [hq]; rfl⟩
      rw [← hj0x]
      exact hpost
    · exact absurd (getEmailById_claim_unclaimed store n now hx) hch
  · intro sendOk store now hnd x hch
    by_cases hx : x ∈ selectQueuedIds store 10
    · rcases List.mem_map.mp hx with ⟨j0, hj0, hj0x⟩
      have hj0mem : j0 ∈ store := (selectedQueued_sublist store 10).subset hj0
      have hpre : getEmailById store x = some j0 := by
        rw [← hj0x]
        exact getEmailById_of_mem_nodup hj0mem hnd
      have hq := selectedQueued_queued hj0
      have hc : claimSet now j0 ∈ (getQueuedEmailsForProcessing store 10 now).2 := by
        rw [claimReturn_eq store 10 now hnd]
        exact List.mem_map_of_mem _ hj0
      have hfin := processQueued_final_claimed sendOk store now hnd hc
      refine ⟨j0, outcomeSet sendOk now (claimSet now j0) (claimSet now j0),
        hpre, ?_, hq, by rw [hq]; rfl, ?_⟩
      · rw [← hj0x]
        exact hfin
      · unfold outcomeSet
        split_ifs <;> rfl
    · exact absurd (processQueued_final_unclaimed sendOk store now hnd hx) hch
  · intro store i reset now x hch
    cases hget : getEmailById store i with
    | none =>
      have hre : requeueEmailJob store i reset now = (store, none) := by
        unfold requeueEmailJob
        rw [hget]
      rw [hre] at hch
      exact absurd rfl hch
    | some job =>
      by_cases hcond : job.status ≠ EmailStatus.failed ∧ job.status ≠ EmailStatus.dead
      · have hre : requeueEmailJob store i reset now = (store, none) := by
          unfold requeueEmailJob
          rw [hget]
          dsimp only
          rw [if_pos hcond]
        rw [hre] at hch
        exact absurd rfl hch
      · have he : job.status = EmailStatus.failed ∨ job.status = EmailStatus.dead := by
          by_contra hno
          push_neg at hno
          exact hcond ⟨hno.1, hno.2⟩
        have hre := requeue_eligible reset now hget he
        rw [hre] at hch ⊢
        by_cases hxi : x = i
        · subst hxi
          refine ⟨job, hget, he,
            { job with status := EmailStatus.queued,
                       retry_count := if reset then 0 else job.retry_count,
                       updated_at := now }, ?_, rfl, ?_⟩
          · have := getEmailById_sqlUpdateWhereId_self
              (g := fun j => { j with status := EmailStatus.queued,
                                      retry_count := if reset then 0 else job.retry_count,
                                      updated_at := now })
              (fun j => rfl) store x
            rw [this, hget]
            rfl
          · rcases he with h | h <;> rw [h] <;> rfl
        · have hunch := getEmailById_sqlUpdateWhereId_ne
            (g := fun j => { j with status := EmailStatus.queued,
                                    retry_count := if reset then 0 else job.retry_count,
                                    updated_at := now })
            (fun j => rfl) store hxi
          exact absurd hunch hch
  · intro store evt now st hws hne
    unfold processWebhookEvent
    rw [if_neg hne, hws]
    apply getEmailById_sqlUpdateWhereId_self
    intro j
    rfl

/-- Witness for C8: the claim part of the amended theorem at a one-job
store whose queued job is claimed. -/
theorem state_machine_amended_witness :
    (([mkJob 1].map EmailJob.id).Nodup) ∧
    (getEmailById (getQueuedEmailsForProcessing [mkJob 1] 10 2).1 "j1" ≠
      getEmailById [mkJob 1] "j1") ∧
    (∃ j : EmailJob, getEmailById [mkJob 1] "j1" = some j ∧
      j.status = EmailStatus.queued ∧
      getEmailById (getQueuedEmailsForProcessing [mkJob 1] 10 2).1 "j1" =
        some (claimSet 2 j) ∧
      specAllowedEdge j.status (claimSet 2 j).status = true) :=
  ⟨by decide, by decide,
    state_machine_amended.1 [mkJob 1] 10 2 (by decide) "j1" (by decide)⟩

/-- Frame preservation of one webhook event. -/
theorem frame_processWebhookEvent (store : Store) (evt : MailjetEvent) (now : Nat) :
    (processWebhookEvent store evt now).map frameOf = store.map frameOf := by
  unfold processWebhookEvent
  by_cases h1 : evt.CustomID = ""
  · rw [if_pos h1]
  · rw [if_neg h1]
    cases webhookStatus evt.event with
    | none => rfl
    | some st =>
      apply frame_sqlUpdateWhereId
      intro j
      rfl

/-- Frame preservation of the webhook fold. -/
theorem frame_webhookFold (now : Nat) :
    ∀ (events : List MailjetEvent) (store : Store),
      ((events.foldl (fun s e => processWebhookEvent s e now) store).map frameOf) =
        store.map frameOf := by
  intro events
  induction events with
  | nil => intro store; rfl
  | cons e l ih =>
    intro store
    rw [List.foldl_cons, ih, frame_processWebhookEvent]

/-- Frame preservation of one processing step. -/
theorem frame_processOneJob (sendOk : EmailJob → Bool) (store : Store) (job : EmailJob)
    (now : Nat) :
    (processOneJob sendOk store job now).map frameOf = store.map frameOf := by
  rw [processOneJob_eq]
  apply frame_sqlUpdateWhereId
  intro j
  unfold outcomeSet frameOf
  split_ifs <;> rfl

/-- Frame preservation of the processing fold. -/
theorem frame_foldProcess (sendOk : EmailJob → Bool) (now : Nat) :
    ∀ (jobs : List EmailJob) (store : Store),
      ((jobs.foldl (fun s j => processOneJob sendOk s j now) store).map frameOf) =
        store.map frameOf := by
  intro jobs
  induction jobs with
  | nil => intro store; rfl
  | cons a l ih =>
    intro store
    rw [List.foldl_cons, ih, frame_processOneJob]

/-- C9: every mutating operation of the system — batch claim, status update,
failure handling, admin requeue, webhook ingestion and the whole processor
run — preserves each row's id, recipient, subject, body and created_at;
only status, retry_count and updated_at are ever modified. -/
theorem immutable_fields_frame :
    (∀ (store : Store) (n now : Nat),
      (getQueuedEmailsForProcessing store n now).1.map frameOf = store.map frameOf) ∧
    (∀ (store : Store) (i : String) (st : EmailStatus) (now : Nat),
      (updateEmailStatus store i st now).map frameOf = store.map frameOf) ∧
    (∀ (store : Store) (job : EmailJob) (m now : Nat),
      (handleFailedJob store job m now).map frameOf = store.map frameOf) ∧
    (∀ (store : Store) (i : String) (reset : Bool) (now : Nat),
      (requeueEmailJob store i reset now).1.map frameOf = store.map frameOf) ∧
    (∀ (store : Store) (events : List MailjetEvent) (now : Nat),
      (processMailjetWebhook store events now).1.map frameOf = store.map frameOf) ∧
    (∀ (sendOk : EmailJob → Bool) (store : Store) (now : Nat),
      (processQueuedEmails sendOk store now).1.map frameOf = store.map frameOf) := by
  refine ⟨?_, ?_, ?_, ?_, ?_, ?_⟩
  · intro store n now
    rw [claimStore_eq]
    apply frame_sqlUpdateWhereIdIn
    intro j
    rfl
  · intro store i st now
    apply frame_sqlUpdateWhereId
    intro j
    rfl
  · intro store job m now
    unfold handleFailedJob
    by_cases hk : m ≤ job.retry_count
    · rw [if_pos hk]
      apply frame_sqlUpdateWhereId
      intro j
      rfl
    · rw [if_neg hk]
      apply frame_sqlUpdateWhereId
      intro j
      rfl
  · intro store i reset now
    cases hget : getEmailById store i with
    | none =>
      have hre : requeueEmailJob store i reset now = (store, none) := by
        unfold requeueEmailJob
        rw [hget]
      rw [hre]
    | some job =>
      by_cases hcond : job.status ≠ EmailStatus.failed ∧ job.status ≠ EmailStatus.dead
      · have hre : requeueEmailJob store i reset now = (store, none) := by
          unfold requeueEmailJob
          rw [hget]
          dsimp only
          rw [if_pos hcond]
        rw [hre]
      · have he : job.status = EmailStatus.failed ∨ job.status = EmailStatus.dead := by
          by_contra hno
          push_neg at hno
          exact hcond ⟨hno.1, hno.2⟩
        rw [requeue_eligible reset now hget he]
        apply frame_sqlUpdateWhereId
        intro j
        rfl
  · intro store events now
    exact frame_webhookFold now events store
  · intro sendOk store now
    rw [processQueuedEmails_fst, frame_foldProcess, claimStore_eq]
    apply frame_sqlUpdateWhereIdIn
    intro j
    rfl

/-- C10: the migrated table's CHECK constraint admits only queued,
processing, sent and failed; hence whenever `handleFailedJob` takes the
dead-letter branch against an existing row, the constrained UPDATE fails at
the storage layer, and any state a constrained commit does persist contains
no `dead` row. -/
theorem dead_letter_check_violation :
    (statusCheckOk EmailStatus.queued = true ∧
      statusCheckOk EmailStatus.processing = true ∧
      statusCheckOk EmailStatus.sent = true ∧
      statusCheckOk EmailStatus.failed = true ∧
      statusCheckOk EmailStatus.dead = false) ∧
    (∀ (store : Store) (job r : EmailJob) (maxRetries now : Nat),
      maxRetries ≤ job.retry_count → r ∈ store → r.id = job.id →
      handleFailedJobChecked store job maxRetries now = none) ∧
    (∀ (s s' : Store), runChecked s = some s' →
      ∀ r ∈ s', statusCheckOk r.status = true) := by
  refine ⟨by decide,
    fun store job r m now hk hr hid => handleFailedJobChecked_none hk hr hid,
    fun s s' hrun r hrm => ?_⟩
  unfold runChecked at hrun
  by_cases h : storeCheckOk s
  · rw [if_pos h] at hrun
    cases hrun
    unfold storeCheckOk at h
    rw [List.all_eq_true] at h
    exact h r hrm
  · rw [if_neg h] at hrun
    cases hrun

/-- Witness for C10: dead-lettering a processing job with exhausted budget
against the constrained one-row table fails. -/
theorem dead_letter_check_violation_witness :
    (3 ≤ procJob3.retry_count ∧ procJob3 ∈ [procJob3] ∧
      handleFailedJobChecked [procJob3] procJob3 3 5 = none) :=
  ⟨by decide, by decide,
    dead_letter_check_violation.2.1 [procJob3] procJob3 procJob3 3 5
      (by decide) (by decide) rfl⟩

end Nocturne
